import Mathlib

/-!
Shallow embedding of the paperd IPC core (src/messaging.rs, src/daemon.rs)
and proofs about its paging protocol, error handling and daemonizer.

Bytes are modelled as `Nat` values; the C `u8` length-and-flag byte is a
`Nat` manipulated with the same bitwise operations the source uses.
OS effects (msgsnd/msgrcv/fork/setsid/canonicalize/stat) are modelled as
explicit parameters recording their outcomes, so that the control flow of
each Rust function becomes a pure Lean function of those outcomes.
-/

namespace Paperd

/-- `MESSAGE_TYPE`: the transport-level type tag (messaging.rs line 81). -/
def MESSAGE_TYPE : Int := 0x7654

/-- `MESSAGE_LENGTH`: fixed payload buffer capacity (messaging.rs line 82). -/
def MESSAGE_LENGTH : Nat := 100

/-- The `Data` struct of messaging.rs lines 90-97: header fields, the
length-and-flag byte and the fixed 100-byte payload buffer. -/
structure Data where
  response_chan : Int
  response_pid : Nat
  message_type : Int
  message_length : Nat
  message : List Nat
deriving DecidableEq

/-- The `Message` struct of messaging.rs lines 84-88: OS type tag plus data. -/
structure Message where
  m_type : Int
  data : Data
deriving DecidableEq

/-- `MessageChannel::send_paged_message` (messaging.rs lines 166-189), minus
the final `msgsnd` call: builds the wire message for one chunk.  The source
zero-fills a 100-byte buffer and copies `msg` into its prefix, then sets the
length byte to the chunk length, or-ing in `0x80` when `fin` is set. -/
def send_paged_message (type_id : Int) (receive_chan : Int) (response_pid : Nat)
    (msg : List Nat) (fin : Bool) : Message :=
  let len := msg.length
  let lenFlag := if fin then len ||| 0x80 else len
  { m_type := MESSAGE_TYPE
    data :=
      { response_chan := receive_chan
        response_pid := response_pid
        message_type := type_id
        message_length := lenFlag
        message := msg ++ List.replicate (MESSAGE_LENGTH - len) 0 } }

/-- The paging loop of `MessageChannel::send_message` (messaging.rs lines
134-155): while bytes remain, emit a chunk of `min remaining 100` bytes,
with the final flag set exactly when the chunk exhausts the remaining data.
An empty byte sequence produces no messages at all (the `while` guard is
`data.len() > 0`). -/
def send_pages (type_id : Int) (receive_chan : Int) (response_pid : Nat)
    (data : List Nat) : List Message :=
  if h : data = [] then []
  else
    let size := min data.length MESSAGE_LENGTH
    send_paged_message type_id receive_chan response_pid (data.take size)
        (size == data.length)
      :: send_pages type_id receive_chan response_pid (data.drop size)
termination_by data.length
decreasing_by
  simp only [List.length_drop]
  have hlen : 0 < data.length := List.length_pos.mpr h
  have hsize : 0 < min data.length MESSAGE_LENGTH := by
    rw [Nat.lt_min]
    exact ⟨hlen, by norm_num [MESSAGE_LENGTH]⟩
  omega

/-- The reassembly loop of `ResponseChannel::receive_message` (messaging.rs
lines 232-263), expressed over the ordered list of wire records the queue
delivers: append the first (low-7-bits-of-length) bytes of each record to
the buffer, stopping after the first record whose `0x80` flag bit is set.
`none` models the loop never finishing (the blocking `msgrcv` would wait
forever for a segment that is never sent). -/
def receive_loop : List Data → Option (List Nat)
  | [] => none
  | d :: rest =>
    let is_done := (d.message_length &&& 0x80) == 0x80
    let len := d.message_length &&& 0x7F
    let chunk := d.message.take len
    if is_done then some chunk
    else
      match receive_loop rest with
      | none => none
      | some r => some (chunk ++ r)

/-- The decode step of `ResponseChannel::receive_message` (messaging.rs lines
273-285).  `parseR` models `serde_json::from_str::<R>`, `parseErr` models
`serde_json::from_str::<ServerErrorMessage>` (returning the envelope's
`error` field).  The result pairs the returned `Result` value (`Err(1)` on
every failure) with the list of lines printed to stderr: on an envelope
parse the daemon's message itself, otherwise a diagnostic carrying the
original parse failure. -/
def decode_response {R : Type} (parseR : String → Except String R)
    (parseErr : String → Except String String) (text : String) :
    Except Nat R × List String :=
  match parseR text with
  | .ok r => (.ok r, [])
  | .error e =>
    match parseErr text with
    | .ok msg => (.error 1, [msg])
    | .error _ => (.error 1, ["Failed to parse response from server: " ++ e])

/-- `CString::new` over path bytes (messaging.rs line 56): fails exactly when
the byte sequence contains a NUL byte. -/
def cstring_new (bytes : List Nat) : Option (List Nat) :=
  if bytes.contains 0 then none else some bytes

/-- The `MessageChannel` struct of messaging.rs lines 104-106. -/
structure MessageChannel where
  msq_id : Int
deriving DecidableEq

/-- `open_message_channel` (messaging.rs lines 46-79).  `canonRes` is the
outcome of `Path::canonicalize` (`none` = failure, `some bytes` = the
canonical path's bytes); `msgget` is the outcome of the `ftok`+`msgget`
pair on those bytes (`-1` = failure).  The second component records whether
the function reached key derivation and the queue open/create call. -/
def open_message_channel (canonRes : Option (List Nat))
    (msgget : List Nat → Int) : Except Nat MessageChannel × Bool :=
  match canonRes with
  | none => (.error 1, false)
  | some bytes =>
    match cstring_new bytes with
    | none => (.error 1, false)
    | some name =>
      let msq_id := msgget name
      if msq_id = -1 then (.error 1, true) else (.ok ⟨msq_id⟩, true)

/-- Modelled from the spec: the key derivation named at messaging.rs line 68
is the platform's `ftok`, whose code is not part of this repository.  The
spec (section 6) describes it as the standard path-to-key hashing convention:
the key packs the low 8 bits of the seed byte, the low 8 bits of the file's
device number and the low 16 bits of its inode number.  `dev`/`ino` are the
file identity of the canonical path. -/
def ftok_key (proj : Nat) (dev : Nat) (ino : Nat) : Nat :=
  ((proj % 256) <<< 24) ||| ((dev % 256) <<< 16) ||| (ino % 65536)

/-- The key `open_message_channel` derives for a canonical path: `ftok` on
the path's file identity with the fixed project seed byte `'P'` (= 80),
messaging.rs line 68.  `stat` maps a canonical path to its (device, inode)
file identity. -/
def queue_key (stat : String → Nat × Nat) (canonicalPath : String) : Nat :=
  ftok_key 80 (stat canonicalPath).1 (stat canonicalPath).2

/-- The reply-channel id `send_message` stamps on every segment
(messaging.rs lines 119-124): the private channel created for this call when
a response is expected, `-1` otherwise. -/
def send_message_receive_chan (exp_resp : Bool) (created_chan : Int) : Int :=
  if exp_resp then created_chan else -1

end Paperd

namespace Paperd

/-- The `Status` enum of daemon.rs lines 22-25. -/
inductive Status where
  | CONTINUE
  | QUIT
deriving DecidableEq

/-- The result of `fork()` as seen by `run_daemon`. -/
inductive ForkResult where
  | Parent (child : Nat)
  | Child
deriving DecidableEq

/-- `close_fd` (daemon.rs lines 64-68): closes a descriptor and discards the
outcome, whatever it is (`match close(fd) { _ => {} }`). -/
def close_fd (closeRes : Except Nat Unit) : Unit :=
  match closeRes with
  | _ => ()

/-- `run_daemon` (daemon.rs lines 30-62).  `forkRes` is the outcome of
`fork()` (`none` = failure), `setsidRes` the outcome of `setsid()` in the
child (`none` = failure), `closeRes` the outcomes of closing stdin, stdout
and stderr.  Parent branch returns `QUIT`; fork failure and setsid failure
return the error exit value 1; otherwise the child closes the three streams,
ignoring each individual result, and returns `CONTINUE`. -/
def run_daemon (forkRes : Option ForkResult) (setsidRes : Option Nat)
    (closeRes : Except Nat Unit × Except Nat Unit × Except Nat Unit) :
    Except Nat Status :=
  match forkRes with
  | some (.Parent _) => .ok .QUIT
  | none => .error 1
  | some .Child =>
    match setsidRes with
    | none => .error 1
    | some _ =>
      let _ := close_fd closeRes.1
      let _ := close_fd closeRes.2.1
      let _ := close_fd closeRes.2.2
      .ok .CONTINUE

/-- Rust slice semantics for the receiver's payload extraction
(`&message.data.message[..len]`, messaging.rs line 260): indexing the first
`len` bytes of the buffer is in bounds exactly when `len` does not exceed
the buffer's length, where `len` is the low 7 bits of the received
length-and-flag byte. -/
def extract_in_bounds (d : Data) : Prop :=
  (d.message_length &&& 0x7F) ≤ d.message.length

instance (d : Data) : Decidable (extract_in_bounds d) := by
  unfold extract_in_bounds
  infer_instance

end Paperd

namespace Paperd

/-! ### Helper lemmas about the length-and-flag byte -/

theorem and_mask7_of_lt {n : Nat} (h : n < 128) : n &&& 0x7F = n := by
  have h7 : (0x7F : Nat) = 2 ^ 7 - 1 := by norm_num
  rw [h7, Nat.and_pow_two_sub_one_eq_mod, Nat.mod_eq_of_lt h]

theorem and_bit7_of_lt {n : Nat} (h : n < 128) : n &&& 0x80 = 0 := by
  have h8 : (0x80 : Nat) = 2 ^ 7 := by norm_num
  rw [h8, Nat.and_two_pow, Nat.testBit_lt_two_pow (by omega)]
  simp

theorem lor_flag_and_mask7 {n : Nat} (h : n < 128) : (n ||| 0x80) &&& 0x7F = n := by
  rw [Nat.and_distrib_right]
  have h7 : (0x7F : Nat) = 2 ^ 7 - 1 := by norm_num
  rw [h7, Nat.and_pow_two_sub_one_eq_mod, Nat.mod_eq_of_lt h]
  have h0 : (0x80 : Nat) &&& (2 ^ 7 - 1) = 0 := by decide
  rw [h0, Nat.or_zero]

theorem lor_flag_and_bit7 {n : Nat} (h : n < 128) : (n ||| 0x80) &&& 0x80 = 0x80 := by
  rw [Nat.and_distrib_right]
  have h8 : (0x80 : Nat) = 2 ^ 7 := by norm_num
  rw [h8, Nat.and_two_pow, Nat.testBit_lt_two_pow (by omega)]
  simp

/-! ### Field lemmas for one wire segment -/

theorem send_paged_message_mask (t r : Int) (p : Nat) (msg : List Nat) (fin : Bool)
    (h : msg.length ≤ 100) :
    ((send_paged_message t r p msg fin).data.message_length &&& 0x7F) = msg.length := by
  have hlt : msg.length < 128 := by omega
  cases fin with
  | true => simp [send_paged_message, lor_flag_and_mask7 hlt]
  | false => simp [send_paged_message, and_mask7_of_lt hlt]

theorem send_paged_message_flag (t r : Int) (p : Nat) (msg : List Nat) (fin : Bool)
    (h : msg.length ≤ 100) :
    (((send_paged_message t r p msg fin).data.message_length &&& 0x80) == 0x80) = fin := by
  have hlt : msg.length < 128 := by omega
  cases fin with
  | true => simp [send_paged_message, lor_flag_and_bit7 hlt]
  | false => simp [send_paged_message, and_bit7_of_lt hlt]

theorem send_paged_message_buffer (t r : Int) (p : Nat) (msg : List Nat) (fin : Bool) :
    (send_paged_message t r p msg fin).data.message =
      msg ++ List.replicate (MESSAGE_LENGTH - msg.length) 0 := by
  simp [send_paged_message]

theorem send_paged_message_buffer_length (t r : Int) (p : Nat) (msg : List Nat) (fin : Bool)
    (h : msg.length ≤ 100) :
    (send_paged_message t r p msg fin).data.message.length = 100 := by
  rw [send_paged_message_buffer]
  simp [MESSAGE_LENGTH]
  omega

theorem send_paged_message_take (t r : Int) (p : Nat) (msg : List Nat) (fin : Bool)
    (h : msg.length ≤ 100) :
    (send_paged_message t r p msg fin).data.message.take
        ((send_paged_message t r p msg fin).data.message_length &&& 0x7F) = msg := by
  rw [send_paged_message_mask t r p msg fin h, send_paged_message_buffer]
  exact List.take_left msg _

/-! ### Unfolding lemmas for the paging loop -/

theorem send_pages_nil (t r : Int) (p : Nat) : send_pages t r p [] = [] := by
  simp [send_pages]

theorem send_pages_cons (t r : Int) (p : Nat) (data : List Nat) (h : data ≠ []) :
    send_pages t r p data =
      send_paged_message t r p (data.take (min data.length MESSAGE_LENGTH))
          ((min data.length MESSAGE_LENGTH) == data.length)
        :: send_pages t r p (data.drop (min data.length MESSAGE_LENGTH)) := by
  rw [send_pages]
  simp [h]

theorem send_pages_ne_nil (t r : Int) (p : Nat) (data : List Nat) (h : data ≠ []) :
    send_pages t r p data ≠ [] := by
  rw [send_pages_cons t r p data h]
  simp

end Paperd

namespace Paperd

/-- Reassembling the segments produced for a nonempty payload yields exactly
the original byte sequence (strong induction on the payload length). -/
theorem send_pages_roundtrip (t r : Int) (p : Nat) :
    ∀ n (data : List Nat), data.length ≤ n → data ≠ [] →
      receive_loop ((send_pages t r p data).map Message.data) = some data := by
  intro n
  induction n with
  | zero =>
    intro data hle hne
    exact absurd (List.length_eq_zero.mp (Nat.le_zero.mp hle)) hne
  | succ n ih =>
    intro data hle hne
    rw [send_pages_cons t r p data hne]
    by_cases hc : data.length ≤ 100
    · have hmin : min data.length MESSAGE_LENGTH = data.length := by
        simp only [MESSAGE_LENGTH]
        omega
      rw [hmin, List.take_length, List.drop_length, send_pages_nil]
      have hflag := send_paged_message_flag t r p data true hc
      have htake := send_paged_message_take t r p data true hc
      simp only [beq_self_eq_true, List.map_cons, List.map_nil, receive_loop, hflag, if_true]
      rw [htake]
    · push_neg at hc
      have hmin : min data.length MESSAGE_LENGTH = 100 := by
        simp only [MESSAGE_LENGTH]
        omega
      rw [hmin]
      have hfin : ((100 : Nat) == data.length) = false := by
        simp only [beq_eq_false_iff_ne, ne_eq]
        omega
      rw [hfin]
      have htlen : (data.take 100).length ≤ 100 := by
        simp [List.length_take]
      have hflag := send_paged_message_flag t r p (data.take 100) false htlen
      have htake := send_paged_message_take t r p (data.take 100) false htlen
      have hdroplen : (data.drop 100).length ≤ n := by
        simp only [List.length_drop]
        omega
      have hdropne : data.drop 100 ≠ [] := by
        intro hnil
        have := congrArg List.length hnil
        simp only [List.length_drop, List.length_nil] at this
        omega
      have hrec := ih (data.drop 100) hdroplen hdropne
      simp only [List.map_cons, receive_loop, hflag, Bool.false_eq_true, if_false, hrec]
      rw [htake, List.take_append_drop]

/-- The number of segments produced for a nonempty payload is
`ceil(length / 100)` (strong induction on the payload length). -/
theorem send_pages_count (t r : Int) (p : Nat) :
    ∀ n (data : List Nat), data.length ≤ n → data ≠ [] →
      (send_pages t r p data).length = (data.length + 99) / 100 := by
  intro n
  induction n with
  | zero =>
    intro data hle hne
    exact absurd (List.length_eq_zero.mp (Nat.le_zero.mp hle)) hne
  | succ n ih =>
    intro data hle hne
    rw [send_pages_cons t r p data hne]
    by_cases hc : data.length ≤ 100
    · have hmin : min data.length MESSAGE_LENGTH = data.length := by
        simp only [MESSAGE_LENGTH]
        omega
      rw [hmin, List.drop_length, send_pages_nil]
      have hpos : 0 < data.length := List.length_pos.mpr hne
      simp only [List.length_cons, List.length_nil]
      omega
    · push_neg at hc
      have hmin : min data.length MESSAGE_LENGTH = 100 := by
        simp only [MESSAGE_LENGTH]
        omega
      rw [hmin]
      have hdroplen : (data.drop 100).length ≤ n := by
        simp only [List.length_drop]
        omega
      have hdropne : data.drop 100 ≠ [] := by
        intro hnil
        have := congrArg List.length hnil
        simp only [List.length_drop, List.length_nil] at this
        omega
      have hrec := ih (data.drop 100) hdroplen hdropne
      simp only [List.length_cons, hrec, List.length_drop]
      omega

end Paperd

namespace Paperd

/-- Flag and length-field invariants of the segments of one payload: every
segment before the last has the final flag clear, the last segment (when one
exists) has it set, and every masked length is at most 100. -/
theorem send_pages_flags (t r : Int) (p : Nat) :
    ∀ n (data : List Nat), data.length ≤ n →
      (∀ m ∈ (send_pages t r p data).dropLast,
          ((m.data.message_length &&& 0x80) == 0x80) = false)
      ∧ (∀ m, (send_pages t r p data).getLast? = some m →
          ((m.data.message_length &&& 0x80) == 0x80) = true)
      ∧ (∀ m ∈ send_pages t r p data, (m.data.message_length &&& 0x7F) ≤ 100) := by
  intro n
  induction n with
  | zero =>
    intro data hle
    have : data = [] := List.length_eq_zero.mp (Nat.le_zero.mp hle)
    subst this
    simp [send_pages_nil]
  | succ n ih =>
    intro data hle
    by_cases hne : data = []
    · subst hne
      simp [send_pages_nil]
    rw [send_pages_cons t r p data hne]
    by_cases hc : data.length ≤ 100
    · have hmin : min data.length MESSAGE_LENGTH = data.length := by
        simp only [MESSAGE_LENGTH]
        omega
      rw [hmin, List.take_length, List.drop_length, send_pages_nil]
      have hflag := send_paged_message_flag t r p data true hc
      have hmask := send_paged_message_mask t r p data true hc
      refine ⟨?_, ?_, ?_⟩
      · intro m hm
        simp at hm
      · intro m hm
        simp only [List.getLast?_singleton, Option.some.injEq] at hm
        subst hm
        simpa [beq_self_eq_true] using hflag
      · intro m hm
        simp only [List.mem_singleton] at hm
        subst hm
        simp only [beq_self_eq_true]
        rw [hmask]
        exact hc
    · push_neg at hc
      have hmin : min data.length MESSAGE_LENGTH = 100 := by
        simp only [MESSAGE_LENGTH]
        omega
      rw [hmin]
      have hfin : ((100 : Nat) == data.length) = false := by
        simp only [beq_eq_false_iff_ne, ne_eq]
        omega
      rw [hfin]
      have htlen : (data.take 100).length ≤ 100 := by
        simp [List.length_take]
      have hflag := send_paged_message_flag t r p (data.take 100) false htlen
      have hmask := send_paged_message_mask t r p (data.take 100) false htlen
      have hdroplen : (data.drop 100).length ≤ n := by
        simp only [List.length_drop]
        omega
      have hdropne : data.drop 100 ≠ [] := by
        intro hnil
        have := congrArg List.length hnil
        simp only [List.length_drop, List.length_nil] at this
        omega
      have hrestne : send_pages t r p (data.drop 100) ≠ [] :=
        send_pages_ne_nil t r p (data.drop 100) hdropne
      have hrec := ih (data.drop 100) hdroplen
      refine ⟨?_, ?_, ?_⟩
      · intro m hm
        rw [List.dropLast_cons_of_ne_nil hrestne] at hm
        rcases List.mem_cons.mp hm with hm | hm
        · subst hm
          exact hflag
        · exact hrec.1 m hm
      · intro m hm
        obtain ⟨b, bs, hbs⟩ := List.exists_cons_of_ne_nil hrestne
        rw [hbs, List.getLast?_cons_cons, ← hbs] at hm
        exact hrec.2.1 m hm
      · intro m hm
        rcases List.mem_cons.mp hm with hm | hm
        · subst hm
          rw [hmask]
          exact htlen
        · exact hrec.2.2 m hm

/-- Header consistency: every segment of one `send_message` call carries the
transport type tag and the same reply channel, sender pid and application
type id. -/
theorem send_pages_headers (t r : Int) (p : Nat) :
    ∀ n (data : List Nat), data.length ≤ n →
      ∀ m ∈ send_pages t r p data,
        m.m_type = MESSAGE_TYPE ∧ m.data.response_chan = r
          ∧ m.data.response_pid = p ∧ m.data.message_type = t := by
  intro n
  induction n with
  | zero =>
    intro data hle
    have : data = [] := List.length_eq_zero.mp (Nat.le_zero.mp hle)
    subst this
    simp [send_pages_nil]
  | succ n ih =>
    intro data hle
    by_cases hne : data = []
    · subst hne
      simp [send_pages_nil]
    rw [send_pages_cons t r p data hne]
    intro m hm
    rcases List.mem_cons.mp hm with hm | hm
    · subst hm
      refine ⟨rfl, rfl, rfl, rfl⟩
    · have hdroplen : (data.drop (min data.length MESSAGE_LENGTH)).length ≤ n := by
        simp only [List.length_drop]
        have hlen : 0 < data.length := List.length_pos.mpr hne
        have hsize : 0 < min data.length MESSAGE_LENGTH := by
          rw [Nat.lt_min]
          exact ⟨hlen, by norm_num [MESSAGE_LENGTH]⟩
        omega
      exact ih _ hdroplen m hm

/-- Every segment the sender produces satisfies the receiver's implicit
slice-bounds precondition. -/
theorem send_pages_in_bounds (t r : Int) (p : Nat) :
    ∀ n (data : List Nat), data.length ≤ n →
      ∀ m ∈ send_pages t r p data, extract_in_bounds m.data := by
  intro n
  induction n with
  | zero =>
    intro data hle
    have : data = [] := List.length_eq_zero.mp (Nat.le_zero.mp hle)
    subst this
    simp [send_pages_nil]
  | succ n ih =>
    intro data hle
    by_cases hne : data = []
    · subst hne
      simp [send_pages_nil]
    rw [send_pages_cons t r p data hne]
    intro m hm
    have htlen : (data.take (min data.length MESSAGE_LENGTH)).length ≤ 100 := by
      simp only [List.length_take, MESSAGE_LENGTH]
      omega
    rcases List.mem_cons.mp hm with hm | hm
    · subst hm
      unfold extract_in_bounds
      rw [send_paged_message_mask _ _ _ _ _ htlen,
        send_paged_message_buffer_length _ _ _ _ _ htlen]
      exact htlen
    · have hdroplen : (data.drop (min data.length MESSAGE_LENGTH)).length ≤ n := by
        simp only [List.length_drop]
        have hlen : 0 < data.length := List.length_pos.mpr hne
        have hsize : 0 < min data.length MESSAGE_LENGTH := by
          rw [Nat.lt_min]
          exact ⟨hlen, by norm_num [MESSAGE_LENGTH]⟩
        omega
      exact ih _ hdroplen m hm

end Paperd

namespace Paperd

/-- Evaluation of the paging loop on a one-byte payload: exactly one final
segment. -/
theorem send_pages_singleton (t r : Int) (p : Nat) (b : Nat) :
    send_pages t r p [b] = [send_paged_message t r p [b] true] := by
  rw [send_pages_cons t r p [b] (by simp)]
  norm_num [MESSAGE_LENGTH, send_pages_nil]

/-- C1 is false as stated: at payload length 0 the sender's loop body never
runs, so zero segments are produced, not the claimed minimum of one
(`max 1 (ceil 0 / 100) = 1`). -/
theorem c1_counterexample :
    ¬ ((send_pages 1 (-1) 0 ([] : List Nat)).length =
        max 1 ((([] : List Nat).length + 99) / 100)) := by
  rw [send_pages_nil]
  decide

/-- C1 (amended): for every payload of length at least 1, splitting by
`send_message` and reassembling the segments in order by `receive_message`'s
accumulation loop yields exactly the original byte sequence, and the number
of segments equals `ceil(length / 100)`; a zero-length payload instead
produces no segments at all. -/
theorem c1_round_trip (t r : Int) (p : Nat) (data : List Nat) (h : data ≠ []) :
    receive_loop ((send_pages t r p data).map Message.data) = some data
      ∧ (send_pages t r p data).length = (data.length + 99) / 100 :=
  ⟨send_pages_roundtrip t r p data.length data (le_refl _) h,
    send_pages_count t r p data.length data (le_refl _) h⟩

theorem c1_round_trip_witness :
    receive_loop ((send_pages 1 (-1) 0 [7]).map Message.data) = some [7]
      ∧ (send_pages 1 (-1) 0 [7]).length = (([7] : List Nat).length + 99) / 100 :=
  c1_round_trip 1 (-1) 0 [7] (by decide)

/-- C2: for every payload split into segments by `send_message`, every
segment before the last has the final-segment flag (bit 7 of the
length-and-flag byte) clear, the last segment has it set, and the low 7 bits
of every segment's length-and-flag byte encode a value of at most 100. -/
theorem c2_final_flag (t r : Int) (p : Nat) (data : List Nat) :
    (∀ m ∈ (send_pages t r p data).dropLast,
        ((m.data.message_length &&& 0x80) == 0x80) = false)
    ∧ (∀ m, (send_pages t r p data).getLast? = some m →
        ((m.data.message_length &&& 0x80) == 0x80) = true)
    ∧ (∀ m ∈ send_pages t r p data, (m.data.message_length &&& 0x7F) ≤ 100) :=
  send_pages_flags t r p data.length data (le_refl _)

theorem c2_final_flag_witness :
    ((send_paged_message 1 (-1) 0 [3] true).data.message_length &&& 0x80 == 0x80) = true :=
  (c2_final_flag 1 (-1) 0 [3]).2.1 _ (by rw [send_pages_singleton]; rfl)

/-- C3 is false as stated: a zero-byte serialized payload produces zero wire
segments, not exactly one. -/
theorem c3_counterexample :
    ¬ ((send_pages 2 (-1) 0 ([] : List Nat)).length = 1) := by
  rw [send_pages_nil]
  decide

/-- C3 (amended): when `send_message` is given a serialized payload of zero
bytes it produces no wire segments at all (the paging loop's guard is
`data.len() > 0`), so a receiver reassembling that message never sees a
final segment and its loop does not terminate via this message. -/
theorem c3_empty_payload (t r : Int) (p : Nat) :
    send_pages t r p [] = []
      ∧ receive_loop ((send_pages t r p []).map Message.data) = none := by
  refine ⟨send_pages_nil t r p, ?_⟩
  rw [send_pages_nil]
  rfl

end Paperd

namespace Paperd

/-- `CString::new` fails on a byte sequence containing NUL. -/
theorem cstring_new_pos {bytes : List Nat} (h : bytes.contains 0 = true) :
    cstring_new bytes = none := by
  unfold cstring_new
  rw [if_pos h]

/-- `CString::new` succeeds on a NUL-free byte sequence. -/
theorem cstring_new_neg {bytes : List Nat} (h : bytes.contains 0 = false) :
    cstring_new bytes = some bytes := by
  unfold cstring_new
  rw [h]
  simp

/-- One-step evaluation of `open_message_channel` on a canonicalized path. -/
theorem open_message_channel_some (bytes : List Nat) (msgget : List Nat → Int) :
    open_message_channel (some bytes) msgget =
      match cstring_new bytes with
      | none => (.error 1, false)
      | some name =>
        if msgget name = -1 then (.error 1, true)
        else (.ok ⟨msgget name⟩, true) := rfl

/-- C4: decode precedence of `receive_message`.  If the accumulated text
parses as the expected result type `R`, the parsed value is returned and the
envelope interpretation is never attempted (the outcome is the same for
every envelope parser).  If parsing as `R` fails and the text parses as the
server-error envelope, the outcome is the server-reported error: the
returned failure together with the daemon's message rendered as the
diagnostic.  If neither parses, the outcome is the protocol error carrying
the original parse failure. -/
theorem c4_decode_precedence {R : Type} (parseR : String → Except String R)
    (parseErr : String → Except String String) (text : String) :
    (∀ r, parseR text = .ok r →
      ∀ parseErr2 : String → Except String String,
        decode_response parseR parseErr2 text = (.ok r, []))
    ∧ (∀ e msg, parseR text = .error e → parseErr text = .ok msg →
        decode_response parseR parseErr text = (.error 1, [msg]))
    ∧ (∀ e e2, parseR text = .error e → parseErr text = .error e2 →
        decode_response parseR parseErr text =
          (.error 1, ["Failed to parse response from server: " ++ e])) := by
  refine ⟨?_, ?_, ?_⟩
  · intro r h parseErr2
    simp [decode_response, h]
  · intro e msg h1 h2
    simp [decode_response, h1, h2]
  · intro e e2 h1 h2
    simp [decode_response, h1, h2]

theorem c4_decode_precedence_witness :
    decode_response (fun _ => (Except.ok 3 : Except String Nat))
        (fun _ => Except.error "no") "text" = (.ok 3, []) :=
  (c4_decode_precedence (fun _ => (Except.ok 3 : Except String Nat))
      (fun _ => Except.error "no") "text").1 3 rfl _

/-- C5 is false as stated: the value returned for a server-reported error is
identical to the value returned for a protocol error (both are `Err(1)`), so
the kind of failure is not distinguishable from the returned value. -/
theorem c5_counterexample :
    (decode_response (fun _ => (Except.error "bad" : Except String Nat))
        (fun t => if t = "srv" then Except.ok "server not running"
          else Except.error "no") "srv").1
      = (decode_response (fun _ => (Except.error "bad" : Except String Nat))
          (fun t => if t = "srv" then Except.ok "server not running"
            else Except.error "no") "junk").1 := by
  rfl

/-- C5 (amended): every fallible core operation returns the error value 1 —
the value the CLI layer uses as the process exit code — so the returned
value does not distinguish the kind of failure; a server-reported error is
distinguishable from a transport or protocol fault only by the diagnostic
printed to stderr (the daemon's message text for a server error). -/
theorem c5_exit_codes :
    (∀ (canonRes : Option (List Nat)) (msgget : List Nat → Int) (e : Nat),
        (open_message_channel canonRes msgget).1 = .error e → e = 1)
    ∧ (∀ (f : Option ForkResult) (s : Option Nat)
          (c : Except Nat Unit × Except Nat Unit × Except Nat Unit) (e : Nat),
        run_daemon f s c = .error e → e = 1)
    ∧ (∀ (R : Type) (parseR : String → Except String R)
          (parseErr : String → Except String String) (text : String) (e : Nat),
        (decode_response parseR parseErr text).1 = .error e → e = 1)
    ∧ (∀ (R : Type) (parseR : String → Except String R)
          (parseErr : String → Except String String) (text : String)
          (e msg : String),
        parseR text = .error e → parseErr text = .ok msg →
          (decode_response parseR parseErr text).2 = [msg])
    ∧ (∀ (R : Type) (parseR : String → Except String R)
          (parseErr : String → Except String String) (text : String)
          (e e2 : String),
        parseR text = .error e → parseErr text = .error e2 →
          (decode_response parseR parseErr text).2 =
            ["Failed to parse response from server: " ++ e]) := by
  refine ⟨?_, ?_, ?_, ?_, ?_⟩
  · intro canonRes msgget e h
    cases canonRes with
    | none => exact (Except.error.inj h).symm
    | some bytes =>
      rw [open_message_channel_some] at h
      by_cases hb : bytes.contains 0
      · rw [cstring_new_pos hb] at h
        exact (Except.error.inj h).symm
      · rw [cstring_new_neg (Bool.eq_false_iff.mpr hb)] at h
        have h' : (if msgget bytes = -1
              then ((Except.error 1 : Except Nat MessageChannel), true)
              else (Except.ok ⟨msgget bytes⟩, true)).1 = Except.error e := h
        by_cases hm : msgget bytes = -1
        · rw [if_pos hm] at h'
          exact (Except.error.inj h').symm
        · rw [if_neg hm] at h'
          exact absurd h' (by simp)
  · intro f s c e h
    cases f with
    | none => simp [run_daemon] at h; omega
    | some fr =>
      cases fr with
      | Parent pid => simp [run_daemon] at h
      | Child =>
        cases s with
        | none => simp [run_daemon] at h; omega
        | some sid => simp [run_daemon] at h
  · intro R parseR parseErr text e h
    unfold decode_response at h
    cases hr : parseR text with
    | ok r => rw [hr] at h; simp at h
    | error er =>
      rw [hr] at h
      cases he : parseErr text with
      | ok msg => rw [he] at h; simp at h; omega
      | error e2 => rw [he] at h; simp at h; omega
  · intro R parseR parseErr text e msg h1 h2
    simp [decode_response, h1, h2]
  · intro R parseR parseErr text e e2 h1 h2
    simp [decode_response, h1, h2]

theorem c5_exit_codes_witness :
    (decode_response (fun _ => (Except.error "bad" : Except String Nat))
        (fun _ => Except.ok "server not running") "srv").2
      = ["server not running"] :=
  c5_exit_codes.2.2.2.1 Nat (fun _ => Except.error "bad")
    (fun _ => Except.ok "server not running") "srv" "bad" "server not running"
    rfl rfl

/-- C6: `run_daemon` returns `QUIT` in the parent branch of the fork; in the
child branch it returns a fatal error if session creation fails and
`CONTINUE` otherwise, regardless of the outcomes of closing the three
standard streams; a fork failure yields a fatal error; and every call ends
in exactly one of the outcomes `QUIT`, `CONTINUE` or error. -/
theorem c6_run_daemon (f : Option ForkResult) (s : Option Nat)
    (c : Except Nat Unit × Except Nat Unit × Except Nat Unit) :
    (∀ pid, f = some (.Parent pid) → run_daemon f s c = .ok .QUIT)
    ∧ (f = none → run_daemon f s c = .error 1)
    ∧ (f = some .Child → s = none → run_daemon f s c = .error 1)
    ∧ (∀ sid, f = some .Child → s = some sid → run_daemon f s c = .ok .CONTINUE)
    ∧ (run_daemon f s c = .ok .QUIT ∨ run_daemon f s c = .ok .CONTINUE
        ∨ run_daemon f s c = .error 1) := by
  refine ⟨?_, ?_, ?_, ?_, ?_⟩
  · intro pid h
    subst h
    rfl
  · intro h
    subst h
    rfl
  · intro hf hs
    subst hf
    subst hs
    rfl
  · intro sid hf hs
    subst hf
    subst hs
    rfl
  · cases f with
    | none => right; right; rfl
    | some fr =>
      cases fr with
      | Parent pid => left; rfl
      | Child =>
        cases s with
        | none => right; right; rfl
        | some sid => right; left; rfl

theorem c6_run_daemon_witness :
    run_daemon (some .Child) (some 5) (.error 9, .error 9, .error 9)
      = .ok .CONTINUE :=
  (c6_run_daemon (some .Child) (some 5)
      (.error 9, .error 9, .error 9)).2.2.2.1 5 rfl rfl

end Paperd

namespace Paperd

/-- The low 16 bits of an `ftok`-style key are the inode's low 16 bits. -/
theorem ftok_key_low_bits (proj dev ino : Nat) :
    ftok_key proj dev ino &&& 65535 = ino % 65536 := by
  unfold ftok_key
  rw [Nat.and_distrib_right, Nat.and_distrib_right]
  have h : (65535 : Nat) = 2 ^ 16 - 1 := by norm_num
  rw [h, Nat.and_pow_two_sub_one_eq_mod, Nat.and_pow_two_sub_one_eq_mod,
    Nat.and_pow_two_sub_one_eq_mod, Nat.shiftLeft_eq, Nat.shiftLeft_eq]
  have e1 : proj % 256 * 2 ^ 24 % 2 ^ 16 = 0 := by omega
  have e2 : dev % 256 * 2 ^ 16 % 2 ^ 16 = 0 := by omega
  have e3 : ino % 65536 % 2 ^ 16 = ino % 65536 := by omega
  rw [e1, e2, e3]
  simp

/-- C7: the queue key is a deterministic function of the canonical path's
file identity and the fixed seed byte, so resolving the same canonical path
twice yields the same key; and two paths whose inodes differ in their low
16 bits (the generic case for distinct existing paths) yield different
keys. -/
theorem c7_queue_key (stat : String → Nat × Nat) (p q : String) :
    (stat p = stat q → queue_key stat p = queue_key stat q)
    ∧ ((stat p).2 % 65536 ≠ (stat q).2 % 65536 →
        queue_key stat p ≠ queue_key stat q) := by
  constructor
  · intro h
    unfold queue_key
    rw [h]
  · intro hino hkey
    apply hino
    have h1 := congrArg (fun k => k &&& 65535) hkey
    simpa only [queue_key, ftok_key_low_bits] using h1

theorem c7_queue_key_witness :
    queue_key (fun s => (3, if s = "a" then 10 else 11)) "a"
      ≠ queue_key (fun s => (3, if s = "a" then 10 else 11)) "b" :=
  (c7_queue_key (fun s => (3, if s = "a" then 10 else 11)) "a" "b").2 (by decide)

/-- C8: `open_message_channel` returns an error without reaching key
derivation or the queue open/create call exactly when the pid-file path
cannot be canonicalized or the canonical path's bytes contain a NUL byte;
otherwise it proceeds to key derivation. -/
theorem c8_path_resolution (canonRes : Option (List Nat))
    (msgget : List Nat → Int) :
    ((open_message_channel canonRes msgget).2 = false ↔
      canonRes = none
        ∨ ∃ bytes, canonRes = some bytes ∧ bytes.contains 0 = true)
    ∧ ((open_message_channel canonRes msgget).2 = false →
        (open_message_channel canonRes msgget).1 = .error 1) := by
  cases canonRes with
  | none =>
    refine ⟨⟨fun _ => Or.inl rfl, fun _ => rfl⟩, fun _ => rfl⟩
  | some bytes =>
    rw [open_message_channel_some]
    by_cases hb : bytes.contains 0
    · rw [cstring_new_pos hb]
      exact ⟨⟨fun _ => Or.inr ⟨bytes, rfl, hb⟩, fun _ => rfl⟩, fun _ => rfl⟩
    · rw [cstring_new_neg (Bool.eq_false_iff.mpr hb)]
      have hsnd : (if msgget bytes = -1
            then ((Except.error 1 : Except Nat MessageChannel), true)
            else (Except.ok ⟨msgget bytes⟩, true)).2 = true := by
        by_cases hm : msgget bytes = -1
        · rw [if_pos hm]
        · rw [if_neg hm]
      constructor
      · constructor
        · intro hfalse
          rw [hsnd] at hfalse
          exact absurd hfalse (by simp)
        · intro hcase
          rcases hcase with hnone | ⟨b, hb2, hc⟩
          · exact absurd hnone (by simp)
          · have : bytes = b := Option.some.inj hb2
            subst this
            exact absurd hc hb
      · intro hfalse
        rw [hsnd] at hfalse
        exact absurd hfalse (by simp)

theorem c8_path_resolution_witness :
    (open_message_channel (some [0]) (fun _ => 7)).1 = .error 1 :=
  (c8_path_resolution (some [0]) (fun _ => 7)).2 rfl

/-- C9: the receiver extracts the first (masked length) bytes of the
100-byte buffer; this is in bounds precisely when the masked length — which
can nominally reach 127 — is at most 100, a received byte whose low 7 bits
encode more than 100 is out of bounds, and every segment produced by the
sender satisfies the precondition. -/
theorem c9_extract_bounds :
    (∀ d : Data, d.message.length = MESSAGE_LENGTH →
        (extract_in_bounds d ↔ (d.message_length &&& 0x7F) ≤ 100))
    ∧ (∀ d : Data, d.message.length = MESSAGE_LENGTH →
        100 < (d.message_length &&& 0x7F) → ¬ extract_in_bounds d)
    ∧ (∀ d : Data, (d.message_length &&& 0x7F) ≤ 127)
    ∧ (∀ (t r : Int) (p : Nat) (data : List Nat),
        ∀ m ∈ send_pages t r p data, extract_in_bounds m.data) := by
  refine ⟨?_, ?_, ?_, ?_⟩
  · intro d hd
    unfold extract_in_bounds
    rw [hd]
    simp [MESSAGE_LENGTH]
  · intro d hd hlen
    unfold extract_in_bounds
    rw [hd]
    simp only [MESSAGE_LENGTH]
    omega
  · intro d
    exact Nat.and_le_right
  · intro t r p data m hm
    exact send_pages_in_bounds t r p data.length data (le_refl _) m hm

theorem c9_extract_bounds_witness :
    ¬ extract_in_bounds ⟨0, 0, 0, 101, List.replicate 100 0⟩ :=
  c9_extract_bounds.2.1 ⟨0, 0, 0, 101, List.replicate 100 0⟩ (by decide) (by decide)

/-- C10: every wire segment produced by one `send_message` call carries the
transport type tag `0x7654`, the reply queue id of the private channel when
a reply is expected (`-1` otherwise), the sender's process id and the
payload type's application message type. -/
theorem c10_header_consistency (t : Int) (p : Nat) (exp_resp : Bool)
    (created_chan : Int) (data : List Nat) :
    ∀ m ∈ send_pages t (send_message_receive_chan exp_resp created_chan) p data,
      m.m_type = 0x7654
      ∧ m.data.response_chan = (if exp_resp then created_chan else -1)
      ∧ m.data.response_pid = p
      ∧ m.data.message_type = t := by
  intro m hm
  have h := send_pages_headers t (send_message_receive_chan exp_resp created_chan)
    p data.length data (le_refl _) m hm
  simpa only [MESSAGE_TYPE, send_message_receive_chan] using h

theorem c10_header_consistency_witness :
    (send_paged_message 4 (send_message_receive_chan true 42) 9 [5] true).m_type = 0x7654
    ∧ (send_paged_message 4 (send_message_receive_chan true 42) 9 [5] true).data.response_chan
        = (if true then 42 else -1)
    ∧ (send_paged_message 4 (send_message_receive_chan true 42) 9 [5] true).data.response_pid = 9
    ∧ (send_paged_message 4 (send_message_receive_chan true 42) 9 [5] true).data.message_type = 4 :=
  c10_header_consistency 4 9 true 42 [5] _
    (by rw [send_pages_singleton]; exact List.mem_singleton_self _)

end Paperd
